import Mathlib

/-!
Shallow embedding of the `oma-helen-cli` client library
(`helenservice/api_client.py` and `helenservice/client/helen_session.py`).

Numeric values (prices, measurement values) are modelled as exact rationals
(`Rat`); Python `datetime` values are modelled as records of their fields,
compared lexicographically exactly as Python's `datetime` comparison does.
A Python function that can raise is modelled as returning `Except PyError α`,
where the constructor names the Python exception raised.
-/

/-- The Python exceptions the embedded code can raise. -/
inductive PyError where
  | indexError
  | attributeError
  | invalidApiResponse
  | zeroDivisionError
  | missingToken
deriving DecidableEq, Repr

/-- A Python `datetime` value as produced by
`datetime.strptime(s, "%Y-%m-%dT%H:%M:%S")`: six numeric fields. -/
structure PyDateTime where
  year : Nat
  month : Nat
  day : Nat
  hour : Nat
  minute : Nat
  second : Nat
deriving DecidableEq, Repr

/-- Python `datetime` comparison `a <= b`: lexicographic on the fields. -/
def pyDateTimeLe (a b : PyDateTime) : Bool :=
  if a.year ≠ b.year then decide (a.year < b.year)
  else if a.month ≠ b.month then decide (a.month < b.month)
  else if a.day ≠ b.day then decide (a.day < b.day)
  else if a.hour ≠ b.hour then decide (a.hour < b.hour)
  else if a.minute ≠ b.minute then decide (a.minute < b.minute)
  else decide (a.second ≤ b.second)

/-- A price component of a contract product
(`products[].components[].{name, price, is_base_price}`). -/
structure Component where
  name : String
  price : Rat
  is_base_price : Bool
deriving DecidableEq, Repr

/-- A product of a contract (`products[].{product_type, components}`). -/
structure Product where
  product_type : String
  components : List Component
deriving DecidableEq, Repr

/-- A contract as returned by the `/contract/list` endpoint.  `start_date`
and `end_date` are stored parsed (the source parses them with
`datetime.strptime(_, "%Y-%m-%dT%H:%M:%S")` wherever it compares them);
`end_date = none` models JSON `null`. -/
structure Contract where
  domain : String
  start_date : PyDateTime
  end_date : Option PyDateTime
  delivery_site_id : Int
  products : List Product
deriving DecidableEq, Repr

/-- `HelenApiClient._date_is_now_or_later`: parse the end date and test
`end_date >= datetime.now()`.  The current time is passed explicitly. -/
def date_is_now_or_later (now : PyDateTime) (end_date : PyDateTime) : Bool :=
  pyDateTimeLe now end_date

/-- `HelenApiClient.filter_active_contracts`: keep contracts whose
`end_date` is `None` or not earlier than now, then drop contracts whose
`domain` is `"electricity-production"`. -/
def filter_active_contracts (now : PyDateTime) (contracts : List Contract) : List Contract :=
  let active_contracts := contracts.filter fun contract =>
    match contract.end_date with
    | none => true
    | some d => date_is_now_or_later now d
  active_contracts.filter fun contract => contract.domain ≠ "electricity-production"

/-- The comparison Python's `list.sort(key=start_date, reverse=True)` uses:
element `a` may precede `b` when `a`'s start date is at least `b`'s.
Python's sort is stable; `List.mergeSort` with this relation models it. -/
def startDateDescLe (a b : Contract) : Bool :=
  pyDateTimeLe b.start_date a.start_date

/-- `HelenApiClient._get_latest_active_contract`: filter the active
contracts, sort them by start date (newest first) when more than one
remains, return `None` when none remains and the first element otherwise. -/
def get_latest_active_contract (now : PyDateTime) (contracts : List Contract) :
    Option Contract :=
  let active_contracts := filter_active_contracts now contracts
  let active_contracts :=
    if active_contracts.length > 1 then active_contracts.mergeSort startDateDescLe
    else active_contracts
  match active_contracts with
  | [] => none
  | c :: _ => some c

/-- `HelenApiClient._get_contract_by_delivery_site_id`.  With no site id it
resolves the latest active contract.  With a site id it filters the active
contracts by that site id; on zero matches it evaluates
`active_contracts[0]` on the empty list (an `IndexError`), on several it
sorts by start date and takes the first, and on exactly one it searches the
full contract list by site id and takes the first match (`[0]` raising
`IndexError` when there is none). -/
def get_contract_by_delivery_site_id (now : PyDateTime) (contracts : List Contract)
    (delivery_site_id : Option Int) : Except PyError (Option Contract) :=
  match delivery_site_id with
  | none => .ok (get_latest_active_contract now contracts)
  | some dsid =>
    let active_contracts := filter_active_contracts now contracts
    let active_contracts := active_contracts.filter fun contract =>
      contract.delivery_site_id = dsid
    if active_contracts.length = 0 then
      match active_contracts with
      | [] => .error .indexError
      | c :: _ => .ok (some c)
    else if active_contracts.length > 1 then
      match active_contracts.mergeSort startDateDescLe with
      | [] => .error .indexError
      | c :: _ => .ok (some c)
    else
      match contracts.filter fun contract => contract.delivery_site_id = dsid with
      | [] => .error .indexError
      | c :: _ => .ok (some c)

/-- `HelenApiClient.get_contract_base_price`: resolve the contract, raise
`InvalidApiResponseException` when it is `None`, find the first product of
type `"energy"` (else return `0.0`), find its first component flagged
`is_base_price` (else return `0.0`), and return that component's price. -/
def get_contract_base_price (now : PyDateTime) (contracts : List Contract)
    (delivery_site_id : Option Int) : Except PyError Rat :=
  match get_contract_by_delivery_site_id now contracts delivery_site_id with
  | .error e => .error e
  | .ok none => .error .invalidApiResponse
  | .ok (some c) =>
    match c.products.find? fun p => p.product_type = "energy" with
    | none => .ok 0
    | some product =>
      match product.components.find? fun component => component.is_base_price with
      | none => .ok 0
      | some base_price_component => .ok base_price_component.price

/-- One reading of a measurement or spot-price series: a status string and
a numeric value. -/
structure Measurement where
  status : String
  value : Rat
deriving DecidableEq, Repr

/-- The `interval` object of a spot-prices response, holding the hourly
price series. -/
structure SpotInterval where
  measurements : List Measurement
deriving DecidableEq, Repr

/-- A spot-prices response; `interval = none` models a JSON `null`
`interval` field (falsy in the source's `if not ... .interval`). -/
structure SpotPricesResponse where
  interval : Option SpotInterval
deriving DecidableEq, Repr

/-- One element of a measurement response's `intervals.electricity` list. -/
structure MeasurementInterval where
  measurements : List Measurement
deriving DecidableEq, Repr

/-- The `intervals` object of a measurement response. -/
structure MeasurementIntervals where
  electricity : List MeasurementInterval
deriving DecidableEq, Repr

/-- A measurement response; `intervals = none` models a JSON `null`
`intervals` field (accessing `.electricity` on it raises
`AttributeError`). -/
structure MeasurementResponse where
  intervals : Option MeasurementIntervals
deriving DecidableEq, Repr

/-- The source's `map(lambda m: m if m.status == 'valid' else None, ...)`:
replace invalid items by `None`, keeping the list's positions. -/
def markValid (l : List Measurement) : List (Option Measurement) :=
  l.map fun m => if m.status = "valid" then some m else none

/-- The loop body of `_get_hourly_consumption_costs`: walk the two marked
lists in parallel up to the shorter one's length (the source's
`range(min(len, len))`), skip a position when either side is `None`, and
collect `abs((price + margin) * measurement)` otherwise. -/
def hourlyConsumptionCostsLoop (margin : Rat) :
    List (Option Measurement) → List (Option Measurement) → List Rat
  | p :: ps, m :: ms =>
    match p, m with
    | some hourly_price, some hourly_measurement =>
      |(hourly_price.value + margin) * hourly_measurement.value| ::
        hourlyConsumptionCostsLoop margin ps ms
    | _, _ => hourlyConsumptionCostsLoop margin ps ms
  | _, _ => []

/-- The loop body of `calculate_impact_of_usage_between_dates`: like
`hourlyConsumptionCostsLoop` but collecting `abs(price * measurement)`. -/
def weightedConsumptionPricesLoop :
    List (Option Measurement) → List (Option Measurement) → List Rat
  | p :: ps, m :: ms =>
    match p, m with
    | some hourly_price, some hourly_measurement =>
      |hourly_price.value * hourly_measurement.value| ::
        weightedConsumptionPricesLoop ps ms
    | _, _ => weightedConsumptionPricesLoop ps ms
  | _, _ => []

/-- `HelenApiClient._get_hourly_consumption_costs`.  Returns `[]` when the
price response has no interval or the measurement response's `electricity`
list is empty; raises `AttributeError` when the measurement response's
`intervals` is `None` (the source dereferences it unconditionally). -/
def get_hourly_consumption_costs (pricesResp : SpotPricesResponse)
    (measResp : MeasurementResponse) (margin : Rat) : Except PyError (List Rat) :=
  match pricesResp.interval with
  | none => .ok []
  | some interval =>
    let hourly_prices := markValid interval.measurements
    match measResp.intervals with
    | none => .error .attributeError
    | some intervals =>
      match intervals.electricity with
      | [] => .ok []
      | e0 :: _ =>
        let hourly_measurements := markValid e0.measurements
        if min hourly_prices.length hourly_measurements.length = 0 then .ok []
        else .ok (hourlyConsumptionCostsLoop margin hourly_prices hourly_measurements)

/-- `HelenApiClient.calculate_total_costs_by_spot_prices_between_dates`:
sum the hourly consumption costs and multiply by `(1 + tax) / 100`. -/
def calculate_total_costs_by_spot_prices_between_dates
    (pricesResp : SpotPricesResponse) (measResp : MeasurementResponse)
    (margin tax : Rat) : Except PyError Rat :=
  match get_hourly_consumption_costs pricesResp measResp margin with
  | .error e => .error e
  | .ok hourly_consumption_costs =>
    .ok (hourly_consumption_costs.sum * (1 + tax) / 100)

/-- `HelenApiClient.calculate_impact_of_usage_between_dates`.  Returns `0.0`
on missing price interval, missing or empty measurement intervals, zero
aligned length or no valid aligned pair; otherwise computes
`(A - B) / E` with `A` the aligned weighted sum, `B` the average of all
valid prices times the total valid consumption `E`, raising
`ZeroDivisionError` when `E = 0`. -/
def calculate_impact_of_usage_between_dates (pricesResp : SpotPricesResponse)
    (measResp : MeasurementResponse) : Except PyError Rat :=
  match pricesResp.interval with
  | none => .ok 0
  | some interval =>
    let hourly_prices := markValid interval.measurements
    match measResp.intervals with
    | none => .ok 0
    | some intervals =>
      match intervals.electricity with
      | [] => .ok 0
      | e0 :: _ =>
        let hourly_measurements := markValid e0.measurements
        if min hourly_prices.length hourly_measurements.length = 0 then .ok 0
        else
          let hourly_prices_without_nones := hourly_prices.filterMap id
          let hourly_measurements_without_nones := hourly_measurements.filterMap id
          let hourly_weighted_consumption_prices :=
            weightedConsumptionPricesLoop hourly_prices hourly_measurements
          if hourly_weighted_consumption_prices = [] then .ok 0
          else
            let monthly_average_price :=
              (hourly_prices_without_nones.map fun p => |p.value|).sum /
                hourly_prices_without_nones.length
            let total_consumption :=
              (hourly_measurements_without_nones.map fun m => |m.value|).sum
            if total_consumption = 0 then .error .zeroDivisionError
            else
              let total_hourly_weighted_consumption_prices :=
                hourly_weighted_consumption_prices.sum
              let total_consumption_average_price :=
                monthly_average_price * total_consumption
              .ok ((total_hourly_weighted_consumption_prices -
                total_consumption_average_price) / total_consumption)

/-- `HelenApiClient.get_total_consumption_between_dates`: sum the absolute
values of the daily measurements with status `"valid"`, taken from
`intervals.electricity[0]` — an `AttributeError` when `intervals` is
`None` and an `IndexError` when the `electricity` list is empty. -/
def get_total_consumption_between_dates (dailyResp : MeasurementResponse) :
    Except PyError Rat :=
  match dailyResp.intervals with
  | none => .error .attributeError
  | some intervals =>
    match intervals.electricity with
    | [] => .error .indexError
    | e0 :: _ =>
      let daily_measurements := e0.measurements.filter fun m => m.status = "valid"
      .ok (daily_measurements.map fun m => |m.value|).sum

/-- `HelenApiClient.calculate_transfer_fees_between_dates`.  The transfer
fee and transfer base price (fetched from the contract data in the source)
are passed as parameters. -/
def calculate_transfer_fees_between_dates (dailyResp : MeasurementResponse)
    (transfer_fee transfer_base_price : Rat) : Except PyError Rat :=
  match get_total_consumption_between_dates dailyResp with
  | .error e => .error e
  | .ok total_consumption =>
    let total_price := total_consumption * transfer_fee
    .ok (total_price / 100 + transfer_base_price)

/-- A cookie jar, as a name/value association list; `requests`'
`cookies.get(name)` is the first binding of that name. -/
def cookiesGet (cookies : List (String × String)) (name : String) : Option String :=
  (cookies.find? fun c => c.1 = name).map fun c => c.2

/-- The state of a `HelenSession`: the cookie jar of its underlying
`requests.Session`. -/
structure HelenSession where
  cookies : List (String × String)
deriving DecidableEq, Repr

/-- `HelenSession.get_access_token`: read the `access-token` cookie; raise
when it is absent (the spec's `MissingTokenError`). -/
def get_access_token (s : HelenSession) : Except PyError String :=
  match cookiesGet s.cookies "access-token" with
  | none => .error .missingToken
  | some access_token => .ok access_token

/-- A Python `datetime.date`: year, month, day. -/
structure PyDate where
  year : Nat
  month : Nat
  day : Nat
deriving DecidableEq, Repr

/-- Gregorian leap-year test. -/
def isLeapYear (y : Nat) : Bool :=
  decide (y % 4 = 0) && (decide (y % 100 ≠ 0) || decide (y % 400 = 0))

/-- Number of days in a Gregorian month. -/
def daysInMonth (y m : Nat) : Nat :=
  if m = 2 then (if isLeapYear y then 29 else 28)
  else if m = 4 ∨ m = 6 ∨ m = 9 ∨ m = 11 then 30
  else 31

/-- Modelled behaviour of the external `dateutil` call
`start + relativedelta(days=-1)`: the previous Gregorian calendar day. -/
def prevDay (d : PyDate) : PyDate :=
  if d.day > 1 then { d with day := d.day - 1 }
  else if d.month > 1 then
    { year := d.year, month := d.month - 1, day := daysInMonth d.year (d.month - 1) }
  else { year := d.year - 1, month := 12, day := 31 }

/-- Zero-padded two-digit decimal rendering, as in Python's date `__str__`. -/
def pad2 (n : Nat) : String :=
  if n < 10 then "0" ++ toString n else toString n

/-- Zero-padded four-digit decimal rendering, as in Python's date `__str__`. -/
def pad4 (n : Nat) : String :=
  if n < 10 then "000" ++ toString n
  else if n < 100 then "00" ++ toString n
  else if n < 1000 then "0" ++ toString n
  else toString n

/-- Python's `str(date)`: ISO `YYYY-MM-DD`. -/
def isoDate (d : PyDate) : String :=
  pad4 d.year ++ "-" ++ pad2 d.month ++ "-" ++ pad2 d.day

/-- The `begin`/`end` query parameters built by
`get_daily_measurements_between_dates` (and the other two between-dates
accessors): `f"{start - 1 day}T22:00:00+00:00"` and
`f"{end}T21:59:59+00:00"`. -/
def measurements_query_window (start end_date : PyDate) : String × String :=
  let previous_day := prevDay start
  (isoDate previous_day ++ "T22:00:00+00:00", isoDate end_date ++ "T21:59:59+00:00")

/-- Validity of a `PyDate`: the dates `datetime.date` can hold. -/
def isValidPyDate (d : PyDate) : Bool :=
  decide (1 ≤ d.year) && decide (1 ≤ d.month) && decide (d.month ≤ 12) &&
    decide (1 ≤ d.day) && decide (d.day ≤ daysInMonth d.year d.month)

/-- Days in the months of year `y` strictly before month `m`. -/
def daysBeforeMonth (y : Nat) : Nat → Nat
  | 0 => 0
  | m + 1 => daysBeforeMonth y m + if m = 0 then 0 else daysInMonth y m

/-- Number of Gregorian leap years in `[1, y]`. -/
def leapYearsBefore (y : Nat) : Nat :=
  y / 4 - y / 100 + y / 400

/-- Day number of a date (days elapsed since 0001-01-01, that day being 0):
the yardstick against which `prevDay` is checked. -/
def rataDie (d : PyDate) : Nat :=
  365 * (d.year - 1) + leapYearsBefore (d.year - 1) +
    daysBeforeMonth d.year d.month + (d.day - 1)

/-- The ordinally aligned pairs of two series at which both sides have
status `"valid"`: the spec's notion of a valid aligned pair. -/
def bothValidPairs (prices meas : List Measurement) :
    List (Measurement × Measurement) :=
  (prices.zip meas).filter fun pm =>
    decide (pm.1.status = "valid") && decide (pm.2.status = "valid")

/-- The spec's formula for `calculateTotalCostsBySpotPrices`: the sum of
`|(price + margin) * measurement|` over valid aligned pairs, multiplied by
`(1 + tax) / 100`. -/
def specTotalCostsBySpotPrices (prices meas : List Measurement)
    (margin tax : Rat) : Rat :=
  ((bothValidPairs prices meas).map fun pm =>
    |(pm.1.value + margin) * pm.2.value|).sum * (1 + tax) / 100

/-- The spec's `calculateTotalConsumption` formula: sum of absolute
measurement values with status `"valid"`. -/
def specTotalConsumption (meas : List Measurement) : Rat :=
  ((meas.filter fun m => decide (m.status = "valid")).map fun m => |m.value|).sum

/-- The impact formula exactly as claim C3 states it, word for word:
`(A - B) / E` with `A` the sum of `|price * measurement|` over valid
aligned pairs, `B` the average of all valid hourly prices — the prices
themselves, signed, as the claim puts no absolute value on them — times
the sum of valid *aligned* measurement magnitudes, and `E` that same
aligned consumption sum. -/
def specImpactOfUsageClaim (prices meas : List Measurement) : Rat :=
  let alignedPairs := bothValidPairs prices meas
  let sumA := (alignedPairs.map fun pm => |pm.1.value * pm.2.value|).sum
  let validPrices := prices.filter fun p => decide (p.status = "valid")
  let averagePrice := (validPrices.map fun p => p.value).sum / validPrices.length
  let sumE := (alignedPairs.map fun pm => |pm.2.value|).sum
  (sumA - averagePrice * sumE) / sumE

/-- The impact formula the code implements — claim C3 amended in the two
places the counterexamples force: `(A - B) / E` with `A` as in claim C3,
but the price average is taken over the *absolute values* of the valid
prices, and `E` is the sum of the magnitudes of *all* valid measurements
of the series — whether or not the corresponding price is valid or even
exists — with `B` that average times that `E`. -/
def specImpactOfUsageAmended (prices meas : List Measurement) : Rat :=
  let alignedPairs := bothValidPairs prices meas
  let sumA := (alignedPairs.map fun pm => |pm.1.value * pm.2.value|).sum
  let validPrices := prices.filter fun p => decide (p.status = "valid")
  let averagePrice := (validPrices.map fun p => |p.value|).sum / validPrices.length
  let sumE := specTotalConsumption meas
  (sumA - averagePrice * sumE) / sumE

/-- Position `i` carries status `"valid"` on both series. -/
def bothValidAt (prices meas : List Measurement) (i : Nat) : Prop :=
  ∃ p m, prices[i]? = some p ∧ meas[i]? = some m ∧
    p.status = "valid" ∧ m.status = "valid"

theorem costsLoop_eq_bothValidPairs (margin : Rat) (ps ms : List Measurement) :
    hourlyConsumptionCostsLoop margin (markValid ps) (markValid ms) =
      (bothValidPairs ps ms).map fun pm => |(pm.1.value + margin) * pm.2.value| := by
  induction ps generalizing ms with
  | nil => simp [markValid, bothValidPairs, hourlyConsumptionCostsLoop]
  | cons p ps ih =>
    cases ms with
    | nil => simp [markValid, bothValidPairs, hourlyConsumptionCostsLoop]
    | cons m ms =>
      by_cases hp : p.status = "valid" <;> by_cases hm : m.status = "valid" <;>
        simp [markValid, bothValidPairs, hourlyConsumptionCostsLoop, hp, hm] <;>
        simpa [markValid, bothValidPairs] using ih ms

theorem weightedLoop_eq_bothValidPairs (ps ms : List Measurement) :
    weightedConsumptionPricesLoop (markValid ps) (markValid ms) =
      (bothValidPairs ps ms).map fun pm => |pm.1.value * pm.2.value| := by
  induction ps generalizing ms with
  | nil => simp [markValid, bothValidPairs, weightedConsumptionPricesLoop]
  | cons p ps ih =>
    cases ms with
    | nil => simp [markValid, bothValidPairs, weightedConsumptionPricesLoop]
    | cons m ms =>
      by_cases hp : p.status = "valid" <;> by_cases hm : m.status = "valid" <;>
        simp [markValid, bothValidPairs, weightedConsumptionPricesLoop, hp, hm] <;>
        simpa [markValid, bothValidPairs] using ih ms

theorem filterMap_markValid (l : List Measurement) :
    (markValid l).filterMap id = l.filter fun m => decide (m.status = "valid") := by
  induction l with
  | nil => simp [markValid]
  | cons m l ih =>
    by_cases hm : m.status = "valid" <;> simp [markValid, hm] <;>
      simpa [markValid] using ih

theorem weightedLoop_nil_of_no_bothValidAt (ps ms : List Measurement)
    (h : ∀ i, ¬ bothValidAt ps ms i) :
    weightedConsumptionPricesLoop (markValid ps) (markValid ms) = [] := by
  induction ps generalizing ms with
  | nil => simp [markValid, weightedConsumptionPricesLoop]
  | cons p ps ih =>
    cases ms with
    | nil => simp [markValid, weightedConsumptionPricesLoop]
    | cons m ms =>
      have h0 := h 0
      simp only [bothValidAt, not_exists] at h0
      have hpm : ¬ (p.status = "valid" ∧ m.status = "valid") := by
        intro hc
        exact (h0 p m) ⟨by simp, by simp, hc.1, hc.2⟩
      have htail : ∀ i, ¬ bothValidAt ps ms i := by
        intro i hi
        obtain ⟨p', m', hp', hm', hv⟩ := hi
        exact (h (i + 1)) ⟨p', m', by simpa using hp', by simpa using hm', hv⟩
      by_cases hp : p.status = "valid" <;> by_cases hm : m.status = "valid"
      · exact absurd ⟨hp, hm⟩ hpm
      all_goals
        simpa [markValid, weightedConsumptionPricesLoop, hp, hm] using ih ms htail

theorem pyDateTimeLe_refl (a : PyDateTime) : pyDateTimeLe a a = true := by
  simp [pyDateTimeLe]

set_option maxHeartbeats 1000000 in
theorem pyDateTimeLe_iff (a b : PyDateTime) :
    pyDateTimeLe a b = true ↔
      a.year < b.year ∨ (a.year = b.year ∧ (a.month < b.month ∨ (a.month = b.month ∧
        (a.day < b.day ∨ (a.day = b.day ∧ (a.hour < b.hour ∨ (a.hour = b.hour ∧
          (a.minute < b.minute ∨
            (a.minute = b.minute ∧ a.second ≤ b.second))))))))) := by
  unfold pyDateTimeLe
  split_ifs <;> simp_all

theorem pyDateTimeLe_trans (a b c : PyDateTime) (hab : pyDateTimeLe a b = true)
    (hbc : pyDateTimeLe b c = true) : pyDateTimeLe a c = true := by
  rw [pyDateTimeLe_iff] at hab hbc ⊢
  omega

theorem pyDateTimeLe_total (a b : PyDateTime) :
    (pyDateTimeLe a b || pyDateTimeLe b a) = true := by
  rw [Bool.or_eq_true, pyDateTimeLe_iff, pyDateTimeLe_iff]
  omega

theorem startDateDescLe_trans (a b c : Contract) (hab : startDateDescLe a b = true)
    (hbc : startDateDescLe b c = true) : startDateDescLe a c = true :=
  pyDateTimeLe_trans c.start_date b.start_date a.start_date hbc hab

theorem startDateDescLe_total (a b : Contract) :
    (startDateDescLe a b || startDateDescLe b a) = true := by
  simpa [startDateDescLe, Bool.or_comm] using
    pyDateTimeLe_total a.start_date b.start_date

theorem mem_filter_active_contracts (now : PyDateTime) (contracts : List Contract)
    (c : Contract) :
    c ∈ filter_active_contracts now contracts ↔
      c ∈ contracts ∧
        (c.end_date = none ∨
          ∃ d, c.end_date = some d ∧ pyDateTimeLe now d = true) ∧
        c.domain ≠ "electricity-production" := by
  simp only [filter_active_contracts, List.mem_filter, decide_eq_true_eq]
  constructor
  · rintro ⟨⟨hmem, hend⟩, hdom⟩
    refine ⟨hmem, ?_, hdom⟩
    cases hd : c.end_date with
    | none => exact Or.inl rfl
    | some d =>
      rw [hd] at hend
      exact Or.inr ⟨d, rfl, hend⟩
  · rintro ⟨hmem, hend, hdom⟩
    refine ⟨⟨hmem, ?_⟩, hdom⟩
    rcases hend with hnone | ⟨d, hd, hle⟩
    · rw [hnone]
    · rw [hd]
      exact hle

theorem get_latest_active_contract_none_iff (now : PyDateTime)
    (contracts : List Contract) :
    get_latest_active_contract now contracts = none ↔
      filter_active_contracts now contracts = [] := by
  simp only [get_latest_active_contract]
  cases hA : filter_active_contracts now contracts with
  | nil => simp
  | cons c0 cs =>
    have hlm : ((c0 :: cs).mergeSort startDateDescLe).length = (c0 :: cs).length :=
      List.length_mergeSort _
    cases hm : (c0 :: cs).mergeSort startDateDescLe with
    | nil =>
      rw [hm] at hlm
      simp at hlm
    | cons d ds =>
      by_cases h0 : 0 < cs.length <;> simp [h0, hm]

theorem get_latest_active_contract_latest (now : PyDateTime)
    (contracts : List Contract) (c : Contract)
    (hc : get_latest_active_contract now contracts = some c) :
    c ∈ filter_active_contracts now contracts ∧
      ∀ c' ∈ filter_active_contracts now contracts,
        pyDateTimeLe c'.start_date c.start_date = true := by
  simp only [get_latest_active_contract] at hc
  cases hA : filter_active_contracts now contracts with
  | nil => rw [hA] at hc; simp at hc
  | cons c0 cs =>
    rw [hA] at hc
    by_cases hlen : (c0 :: cs).length > 1
    · rw [if_pos hlen] at hc
      cases hm : (c0 :: cs).mergeSort startDateDescLe with
      | nil =>
        have hlm : ((c0 :: cs).mergeSort startDateDescLe).length = (c0 :: cs).length :=
          List.length_mergeSort _
        rw [hm] at hlm
        simp at hlm
      | cons d ds =>
        rw [hm] at hc
        simp only [Option.some.injEq] at hc
        subst hc
        have hperm : List.Perm ((c0 :: cs).mergeSort startDateDescLe) (c0 :: cs) :=
          List.mergeSort_perm _ _
        have hpw : ((c0 :: cs).mergeSort startDateDescLe).Pairwise
            (fun x y => startDateDescLe x y = true) := by
          have := List.sorted_mergeSort
            (fun a b c hab hbc => startDateDescLe_trans a b c hab hbc)
            (fun a b => startDateDescLe_total a b) (c0 :: cs)
          simpa using this
        rw [hm] at hpw
        have hhead : ∀ b ∈ ds, startDateDescLe d b = true :=
          (List.pairwise_cons.mp hpw).1
        constructor
        · have hd : d ∈ (c0 :: cs).mergeSort startDateDescLe := by rw [hm]; simp
          exact hperm.mem_iff.mp hd
        · intro c' hc'
          have hc'm : c' ∈ (c0 :: cs).mergeSort startDateDescLe :=
            hperm.mem_iff.mpr hc'
          rw [hm] at hc'm
          rcases List.mem_cons.mp hc'm with h | h
          · subst h
            exact pyDateTimeLe_refl _
          · exact hhead c' h
    · have hcs : cs = [] := by
        cases cs with
        | nil => rfl
        | cons x xs => simp at hlen
      subst hcs
      rw [if_neg hlen] at hc
      simp only [Option.some.injEq] at hc
      subst hc
      constructor
      · simp
      · intro c' hc'
        simp only [List.mem_singleton] at hc'
        subst hc'
        exact pyDateTimeLe_refl _

/-- C1: active-contract resolution keeps exactly the contracts whose
`end_date` is null or at/after `now`, excluding domain
`electricity-production`; it returns `none` exactly when no contract
remains, and any contract it returns is an active contract whose
`start_date` is at least every remaining contract's `start_date`. -/
theorem C1_active_contract_resolution (now : PyDateTime) (contracts : List Contract) :
    (∀ c, c ∈ filter_active_contracts now contracts ↔
        c ∈ contracts ∧
          (c.end_date = none ∨
            ∃ d, c.end_date = some d ∧ pyDateTimeLe now d = true) ∧
          c.domain ≠ "electricity-production") ∧
    (get_latest_active_contract now contracts = none ↔
      filter_active_contracts now contracts = []) ∧
    (∀ c, get_latest_active_contract now contracts = some c →
        c ∈ filter_active_contracts now contracts ∧
        ∀ c' ∈ filter_active_contracts now contracts,
          pyDateTimeLe c'.start_date c.start_date = true) :=
  ⟨fun c => mem_filter_active_contracts now contracts c,
   get_latest_active_contract_none_iff now contracts,
   fun c hc => get_latest_active_contract_latest now contracts c hc⟩

/-- A reference "current time" for the concrete examples. -/
def exNow : PyDateTime := ⟨2024, 6, 1, 0, 0, 0⟩

/-- The spec's example contract with start date 2023-01-01 and no end date. -/
def exContract2023 : Contract :=
  ⟨"electricity", ⟨2023, 1, 1, 0, 0, 0⟩, none, 1, []⟩

/-- The spec's example contract with start date 2024-01-01 and no end date. -/
def exContract2024 : Contract :=
  ⟨"electricity", ⟨2024, 1, 1, 0, 0, 0⟩, none, 2, []⟩

/-- An expired contract on delivery site 200. -/
def exContractInactive : Contract :=
  ⟨"electricity", ⟨2020, 1, 1, 0, 0, 0⟩, some ⟨2021, 1, 1, 0, 0, 0⟩, 200, []⟩

theorem mergeSort_pair {α : Type} (le : α → α → Bool) (a b : α) :
    [a, b].mergeSort le = if le a b then [a, b] else [b, a] := by
  rw [List.mergeSort]
  simp [List.splitInTwo, List.splitAt, List.splitAt.go, List.merge]

/-- Witness for C1 at the spec's example: of the two open-ended
`electricity` contracts starting 2023-01-01 and 2024-01-01, the resolver
returns the 2024 one, and the theorem's conclusion holds there. -/
theorem C1_active_contract_resolution_witness :
    get_latest_active_contract exNow [exContract2023, exContract2024] =
      some exContract2024 ∧
    exContract2024 ∈ filter_active_contracts exNow [exContract2023, exContract2024] ∧
    ∀ c' ∈ filter_active_contracts exNow [exContract2023, exContract2024],
      pyDateTimeLe c'.start_date exContract2024.start_date = true := by
  have hfilter : filter_active_contracts exNow [exContract2023, exContract2024] =
      [exContract2023, exContract2024] := by decide
  have hsort : [exContract2023, exContract2024].mergeSort startDateDescLe =
      [exContract2024, exContract2023] := by
    rw [mergeSort_pair]
    have : startDateDescLe exContract2023 exContract2024 = false := by decide
    rw [this]
    simp
  have h1 : get_latest_active_contract exNow [exContract2023, exContract2024] =
      some exContract2024 := by
    simp only [get_latest_active_contract]
    rw [hfilter]
    rw [if_pos (by decide : ([exContract2023, exContract2024] : List Contract).length > 1)]
    rw [hsort]
  exact ⟨h1,
    (C1_active_contract_resolution exNow [exContract2023, exContract2024]).2.2
      exContract2024 h1⟩

/-- C2: requesting delivery site id 200 when no *active* contract carries
it makes `_get_contract_by_delivery_site_id` evaluate `active_contracts[0]`
on the empty list — an `IndexError` — even though an (inactive) contract
with that site id exists in the full list, so the claimed fallback search
never happens. -/
theorem C2_site_id_fallback_index_error :
    get_contract_by_delivery_site_id exNow [exContractInactive, exContract2023]
      (some 200) = .error .indexError ∧
    ([exContractInactive, exContract2023].filter
      fun c => c.delivery_site_id = 200) = [exContractInactive] := by
  exact ⟨rfl, by decide⟩

/-- A daily measurement response whose `intervals.electricity` list is
empty. -/
def exEmptyElectricityResp : MeasurementResponse := ⟨some ⟨[]⟩⟩

/-- A spot-price response with a single valid hourly price. -/
def exOnePriceResp : SpotPricesResponse := ⟨some ⟨[⟨"valid", 1⟩]⟩⟩

/-- C10: on a response whose `intervals.electricity` list is empty, the
daily path (`get_total_consumption_between_dates`, and through it
`calculate_transfer_fees_between_dates`) raises `IndexError`, while the
hourly aggregation path returns normally on the same response. -/
theorem C10_daily_index_error :
    get_total_consumption_between_dates exEmptyElectricityResp = .error .indexError ∧
    calculate_transfer_fees_between_dates exEmptyElectricityResp 5 3 =
      .error .indexError ∧
    get_hourly_consumption_costs exOnePriceResp exEmptyElectricityResp 1 = .ok [] := by
  refine ⟨rfl, rfl, rfl⟩

/-- An hourly price series whose first entry is invalid. -/
def exPrices : List Measurement := [⟨"invalid", 10⟩, ⟨"valid", 10⟩]

/-- An hourly measurement series with two valid entries. -/
def exMeas : List Measurement := [⟨"valid", 2⟩, ⟨"valid", 3⟩]

/-- The spot-price response carrying `exPrices`. -/
def exPricesResp : SpotPricesResponse := ⟨some ⟨exPrices⟩⟩

/-- The measurement response carrying `exMeas`. -/
def exMeasResp : MeasurementResponse := ⟨some ⟨[⟨exMeas⟩]⟩⟩

/-- An hourly price series holding a single valid negative price. -/
def exPricesNeg : List Measurement := [⟨"valid", -10⟩]

/-- An hourly measurement series with one valid entry. -/
def exMeasNeg : List Measurement := [⟨"valid", 2⟩]

/-- The spot-price response carrying `exPricesNeg`. -/
def exPricesNegResp : SpotPricesResponse := ⟨some ⟨exPricesNeg⟩⟩

/-- The measurement response carrying `exMeasNeg`. -/
def exMeasNegResp : MeasurementResponse := ⟨some ⟨[⟨exMeasNeg⟩]⟩⟩

/-- Counterexample to C3 as stated, refuting it in both places the
amendment changes.  First, with prices `[(invalid, 10), (valid, 10)]` and
measurements `[(valid, 2), (valid, 3)]` the code returns
`(30 - 10*5)/5 = -4`, while the claim's formula — whose `E` counts only
the *aligned* valid consumption `3` — yields `(30 - 10*3)/3 = 0`.
Second, with the single valid pair `(price -10, measurement 2)` the code
averages `|{-10}| = 10` and returns `(20 - 10*2)/2 = 0`, while the
claim's formula averages the signed prices and yields
`(20 - (-10)*2)/2 = 20`. -/
theorem C3_impact_formula_counterexample :
    (calculate_impact_of_usage_between_dates exPricesResp exMeasResp = .ok (-4) ∧
      specImpactOfUsageClaim exPrices exMeas = 0 ∧
      ((-4 : Rat) = 0 → False)) ∧
    (calculate_impact_of_usage_between_dates exPricesNegResp exMeasNegResp = .ok 0 ∧
      specImpactOfUsageClaim exPricesNeg exMeasNeg = 20 ∧
      ((0 : Rat) = 20 → False)) := by
  refine ⟨⟨?_, ?_, by norm_num⟩, ⟨?_, ?_, by norm_num⟩⟩
  · norm_num +decide [calculate_impact_of_usage_between_dates, exPricesResp,
      exMeasResp, exPrices, exMeas, markValid, weightedConsumptionPricesLoop,
      List.filterMap_cons, List.filterMap_nil, id_eq]
  · norm_num +decide [specImpactOfUsageClaim, bothValidPairs, exPrices, exMeas]
  · norm_num +decide [calculate_impact_of_usage_between_dates, exPricesNegResp,
      exMeasNegResp, exPricesNeg, exMeasNeg, markValid,
      weightedConsumptionPricesLoop, List.filterMap_cons, List.filterMap_nil,
      id_eq]
  · norm_num +decide [specImpactOfUsageClaim, bothValidPairs, exPricesNeg,
      exMeasNeg]

/-- C3 (amended): the impact is `(A - B) / E` where `A` is the sum of
`|price * measurement|` over valid aligned pairs and `B` is the average of
the *absolute values* of all valid hourly prices in the window multiplied
by `E`, and `E` is the sum of the absolute values of *all* measurements
with status valid in the measurement series — including those whose paired
price is invalid or missing — not only the aligned ones. -/
theorem C3_impact_formula_amended (pricesResp : SpotPricesResponse)
    (measResp : MeasurementResponse) (pint : SpotInterval)
    (ivs : MeasurementIntervals) (e0 : MeasurementInterval)
    (rest : List MeasurementInterval)
    (hpi : pricesResp.interval = some pint)
    (hivs : measResp.intervals = some ivs)
    (he : ivs.electricity = e0 :: rest)
    (hpair : bothValidPairs pint.measurements e0.measurements ≠ [])
    (hE : specTotalConsumption e0.measurements ≠ 0) :
    calculate_impact_of_usage_between_dates pricesResp measResp =
      .ok (specImpactOfUsageAmended pint.measurements e0.measurements) := by
  have hA := weightedLoop_eq_bothValidPairs pint.measurements e0.measurements
  have hP := filterMap_markValid pint.measurements
  have hM := filterMap_markValid e0.measurements
  have hne1 : pint.measurements ≠ [] := by
    intro h
    apply hpair
    simp [bothValidPairs, h]
  have hne2 : e0.measurements ≠ [] := by
    intro h
    apply hpair
    simp [bothValidPairs, h]
  have hl1 : 0 < pint.measurements.length := List.length_pos.mpr hne1
  have hl2 : 0 < e0.measurements.length := List.length_pos.mpr hne2
  have hmin : ¬ min (markValid pint.measurements).length
      (markValid e0.measurements).length = 0 := by
    simp only [markValid, List.length_map]
    omega
  have hw : ¬ weightedConsumptionPricesLoop (markValid pint.measurements)
      (markValid e0.measurements) = [] := by
    rw [hA]
    simpa using hpair
  have hE' : ¬ ((((markValid e0.measurements).filterMap id).map
      fun m => |m.value|).sum : Rat) = 0 := by
    rw [hM]
    exact hE
  unfold calculate_impact_of_usage_between_dates
  simp only [hpi, hivs, he]
  rw [if_neg hmin, if_neg hw, if_neg hE']
  rw [hA, hP, hM]
  rfl

/-- Witness for the amended C3 at the concrete series of the
counterexample. -/
theorem C3_impact_formula_amended_witness :
    exPricesResp.interval = some ⟨exPrices⟩ ∧
    bothValidPairs exPrices exMeas ≠ [] ∧
    specTotalConsumption exMeas ≠ 0 ∧
    calculate_impact_of_usage_between_dates exPricesResp exMeasResp =
      .ok (specImpactOfUsageAmended exPrices exMeas) :=
  ⟨rfl, by decide, by norm_num [specTotalConsumption, exMeas],
   C3_impact_formula_amended exPricesResp exMeasResp ⟨exPrices⟩ ⟨[⟨exMeas⟩]⟩ ⟨exMeas⟩ []
     rfl rfl rfl (by decide) (by norm_num [specTotalConsumption, exMeas])⟩

/-- C4: the total spot-price cost is the sum of
`|(price + margin) * measurement|` over the valid aligned pairs — indices
where either side is not valid are dropped — multiplied by
`(1 + tax) / 100`. -/
theorem C4_total_costs_formula (pricesResp : SpotPricesResponse)
    (measResp : MeasurementResponse) (margin tax : Rat) (pint : SpotInterval)
    (ivs : MeasurementIntervals) (e0 : MeasurementInterval)
    (rest : List MeasurementInterval)
    (hpi : pricesResp.interval = some pint)
    (hivs : measResp.intervals = some ivs)
    (he : ivs.electricity = e0 :: rest) :
    calculate_total_costs_by_spot_prices_between_dates pricesResp measResp margin tax =
      .ok (specTotalCostsBySpotPrices pint.measurements e0.measurements margin tax) := by
  unfold calculate_total_costs_by_spot_prices_between_dates get_hourly_consumption_costs
  simp only [hpi, hivs, he]
  by_cases hmin : min (markValid pint.measurements).length
      (markValid e0.measurements).length = 0
  · rw [if_pos hmin]
    have hz : bothValidPairs pint.measurements e0.measurements = [] := by
      simp only [markValid, List.length_map] at hmin
      rcases Nat.min_eq_zero_iff.mp hmin with h | h
      · rw [List.length_eq_zero] at h
        simp [bothValidPairs, h]
      · rw [List.length_eq_zero] at h
        simp [bothValidPairs, h]
    simp [specTotalCostsBySpotPrices, hz]
  · rw [if_neg hmin]
    rw [costsLoop_eq_bothValidPairs]
    rfl

/-- Witness for C4 at the concrete series of the C3 counterexample, with
margin `38/100` and tax `24/100`. -/
theorem C4_total_costs_formula_witness :
    exPricesResp.interval = some ⟨exPrices⟩ ∧
    calculate_total_costs_by_spot_prices_between_dates exPricesResp exMeasResp
      (38/100) (24/100) =
      .ok (specTotalCostsBySpotPrices exPrices exMeas (38/100) (24/100)) :=
  ⟨rfl,
   C4_total_costs_formula exPricesResp exMeasResp (38/100) (24/100)
     ⟨exPrices⟩ ⟨[⟨exMeas⟩]⟩ ⟨exMeas⟩ [] rfl rfl rfl⟩

/-- C5: the impact calculation returns exactly `0.0` when the spot-price
interval is missing or empty, when the measurement intervals are missing
or the `electricity` list is empty, and when no index carries status
`"valid"` in both series simultaneously. -/
theorem C5_impact_zero_cases :
    (∀ (pricesResp : SpotPricesResponse) (measResp : MeasurementResponse),
        (pricesResp.interval = none ∨
          ∃ pint, pricesResp.interval = some pint ∧ pint.measurements = []) →
        calculate_impact_of_usage_between_dates pricesResp measResp = .ok 0) ∧
    (∀ (pricesResp : SpotPricesResponse) (measResp : MeasurementResponse),
        (measResp.intervals = none ∨
          ∃ ivs, measResp.intervals = some ivs ∧ ivs.electricity = []) →
        calculate_impact_of_usage_between_dates pricesResp measResp = .ok 0) ∧
    (∀ (pricesResp : SpotPricesResponse) (measResp : MeasurementResponse)
        (pint : SpotInterval) (ivs : MeasurementIntervals)
        (e0 : MeasurementInterval) (rest : List MeasurementInterval),
        pricesResp.interval = some pint → measResp.intervals = some ivs →
        ivs.electricity = e0 :: rest →
        (∀ i, ¬ bothValidAt pint.measurements e0.measurements i) →
        calculate_impact_of_usage_between_dates pricesResp measResp = .ok 0) := by
  refine ⟨?_, ?_, ?_⟩
  · intro pricesResp measResp h
    rcases h with hnone | ⟨pint, hpi, hempty⟩
    · unfold calculate_impact_of_usage_between_dates
      simp [hnone]
    · unfold calculate_impact_of_usage_between_dates
      simp only [hpi, hempty]
      cases hivs : measResp.intervals with
      | none => rfl
      | some ivs =>
        cases helec : ivs.electricity with
        | nil =>
          dsimp only
          rw [helec]
        | cons e0 rest =>
          dsimp only
          rw [helec]
          dsimp only
          rw [if_pos (by simp [markValid])]
  · intro pricesResp measResp h
    unfold calculate_impact_of_usage_between_dates
    cases hpi : pricesResp.interval with
    | none => rfl
    | some pint =>
      rcases h with hnone | ⟨ivs, hivs, hempty⟩
      · dsimp only
        rw [hnone]
      · dsimp only
        rw [hivs]
        dsimp only
        rw [hempty]
  · intro pricesResp measResp pint ivs e0 rest hpi hivs he hvalid
    unfold calculate_impact_of_usage_between_dates
    simp only [hpi, hivs, he]
    by_cases hmin : min (markValid pint.measurements).length
        (markValid e0.measurements).length = 0
    · rw [if_pos hmin]
    · rw [if_neg hmin,
        if_pos (weightedLoop_nil_of_no_bothValidAt pint.measurements
          e0.measurements hvalid)]

/-- Witness for C5: a response with no price interval, and the concrete
series of the C3 counterexample with the valid flags removed from the
prices. -/
theorem C5_impact_zero_cases_witness :
    calculate_impact_of_usage_between_dates ⟨none⟩ exMeasResp = .ok 0 ∧
    calculate_impact_of_usage_between_dates ⟨some ⟨[⟨"invalid", 10⟩]⟩⟩ exMeasResp =
      .ok 0 :=
  ⟨C5_impact_zero_cases.1 ⟨none⟩ exMeasResp (Or.inl rfl),
   C5_impact_zero_cases.2.2 ⟨some ⟨[⟨"invalid", 10⟩]⟩⟩ exMeasResp
     ⟨[⟨"invalid", 10⟩]⟩ ⟨[⟨exMeas⟩]⟩ ⟨exMeas⟩ [] rfl rfl rfl
     (by
       intro i hbad
       obtain ⟨p, m, hp, hm, hv1, hv2⟩ := hbad
       cases i with
       | zero =>
         simp only [List.getElem?_cons_zero, Option.some.injEq] at hp
         subst hp
         simp at hv1
       | succ n => simp at hp)⟩

/-- C6: `get_contract_base_price` raises `InvalidApiResponseException`
exactly when contract resolution yields no contract, and returns `0.0`
when the resolved contract's first energy product has no component flagged
`is_base_price`. -/
theorem C6_base_price_error_handling (now : PyDateTime) (contracts : List Contract)
    (delivery_site_id : Option Int) :
    (get_contract_by_delivery_site_id now contracts delivery_site_id = .ok none →
      get_contract_base_price now contracts delivery_site_id =
        .error .invalidApiResponse) ∧
    (∀ c product,
        get_contract_by_delivery_site_id now contracts delivery_site_id =
          .ok (some c) →
        (c.products.find? fun p => p.product_type = "energy") = some product →
        (∀ component ∈ product.components, component.is_base_price = false) →
        get_contract_base_price now contracts delivery_site_id = .ok 0) := by
  constructor
  · intro h
    unfold get_contract_base_price
    rw [h]
  · intro c product hres hprod hcomp
    unfold get_contract_base_price
    rw [hres]
    simp only [hprod]
    have hfind : (product.components.find? fun component => component.is_base_price)
        = none := by
      rw [List.find?_eq_none]
      intro x hx
      simp [hcomp x hx]
    rw [hfind]

/-- A contract whose energy product has a single component that is not
flagged as a base price. -/
def exContractNoBase : Contract :=
  ⟨"electricity", ⟨2024, 1, 1, 0, 0, 0⟩, none, 3,
    [⟨"energy", [⟨"Energia", 5, false⟩]⟩]⟩

/-- Witness for C6: with an empty contract list resolution yields no
contract and the accessor raises; with a contract whose energy product has
no base-price component it returns `0.0`. -/
theorem C6_base_price_error_handling_witness :
    get_contract_base_price exNow [] none = .error .invalidApiResponse ∧
    get_contract_base_price exNow [exContractNoBase] none = .ok 0 :=
  ⟨(C6_base_price_error_handling exNow [] none).1 rfl,
   (C6_base_price_error_handling exNow [exContractNoBase] none).2
     exContractNoBase ⟨"energy", [⟨"Energia", 5, false⟩]⟩ rfl rfl
     (by decide)⟩

/-- C7: `get_access_token` fails with the spec's `MissingTokenError` when
no `access-token` cookie is on the session — the state before a successful
`authenticate` — and returns the stored token otherwise. -/
theorem C7_access_token (s : HelenSession) :
    (cookiesGet s.cookies "access-token" = none →
      get_access_token s = .error .missingToken) ∧
    (∀ t, cookiesGet s.cookies "access-token" = some t →
      get_access_token s = .ok t) := by
  constructor
  · intro h
    unfold get_access_token
    rw [h]
  · intro t h
    unfold get_access_token
    rw [h]

/-- Witness for C7: a fresh session with no cookies raises, and a session
holding an `access-token` cookie returns its value. -/
theorem C7_access_token_witness :
    get_access_token ⟨[]⟩ = .error .missingToken ∧
    get_access_token ⟨[("access-token", "tok")]⟩ = .ok "tok" :=
  ⟨(C7_access_token ⟨[]⟩).1 rfl,
   (C7_access_token ⟨[("access-token", "tok")]⟩).2 "tok" (by decide)⟩

/-- C8: the transfer fee total is
`totalConsumption * transferFeePerUnit / 100 + transferBasePrice`, with
`totalConsumption` the sum of the absolute values of the valid daily
measurements. -/
theorem C8_transfer_fees_formula (dailyResp : MeasurementResponse)
    (ivs : MeasurementIntervals) (e0 : MeasurementInterval)
    (rest : List MeasurementInterval) (transfer_fee transfer_base_price : Rat)
    (hivs : dailyResp.intervals = some ivs) (he : ivs.electricity = e0 :: rest) :
    calculate_transfer_fees_between_dates dailyResp transfer_fee transfer_base_price =
      .ok (specTotalConsumption e0.measurements * transfer_fee / 100 +
        transfer_base_price) := by
  unfold calculate_transfer_fees_between_dates get_total_consumption_between_dates
  simp only [hivs, he]
  rfl

theorem daysInMonth_pos (y m : Nat) : 1 ≤ daysInMonth y m := by
  unfold daysInMonth
  split_ifs <;> omega

theorem daysInMonth_twelve (y : Nat) : daysInMonth y 12 = 31 := by
  norm_num [daysInMonth]

theorem daysBeforeMonth_succ (y m : Nat) (h : 1 ≤ m) :
    daysBeforeMonth y (m + 1) = daysBeforeMonth y m + daysInMonth y m := by
  obtain ⟨k, rfl⟩ : ∃ k, m = k + 1 := ⟨m - 1, by omega⟩
  rfl

theorem daysBeforeMonth_twelve (y : Nat) :
    daysBeforeMonth y 12 = 334 + (if isLeapYear y then 1 else 0) := by
  by_cases hl : isLeapYear y <;> simp [daysBeforeMonth, daysInMonth, hl]

theorem leapYearsBefore_succ (n : Nat) (h : 1 ≤ n) :
    leapYearsBefore (n - 1) + (if isLeapYear n then 1 else 0) = leapYearsBefore n := by
  unfold leapYearsBefore
  by_cases h4 : n % 4 = 0 <;> by_cases h100 : n % 100 = 0 <;>
    by_cases h400 : n % 400 = 0 <;> simp [isLeapYear, h4, h100, h400] <;> omega

/-- C9: for every valid start date (other than 0001-01-01, which has no
predecessor) and every end date, the emitted query window is the previous
calendar day of `start` at `22:00:00+00:00` and the end date at
`21:59:59+00:00`; the previous day is a valid date whose day number is one
less than `start`'s. -/
theorem C9_query_window (s e : PyDate) (hs : isValidPyDate s = true)
    (hne : ¬(s.year = 1 ∧ s.month = 1 ∧ s.day = 1)) :
    measurements_query_window s e =
      (isoDate (prevDay s) ++ "T22:00:00+00:00", isoDate e ++ "T21:59:59+00:00") ∧
    isValidPyDate (prevDay s) = true ∧
    rataDie (prevDay s) + 1 = rataDie s := by
  refine ⟨rfl, ?_⟩
  obtain ⟨y, m, d⟩ := s
  simp only [isValidPyDate, Bool.and_eq_true, decide_eq_true_eq] at hs
  obtain ⟨⟨⟨⟨hy, hm1⟩, hm2⟩, hd1⟩, hd2⟩ := hs
  by_cases hday : d > 1
  · have hp : prevDay ⟨y, m, d⟩ = ⟨y, m, d - 1⟩ := by
      simp [prevDay, hday]
    rw [hp]
    constructor
    · simp only [isValidPyDate, Bool.and_eq_true, decide_eq_true_eq]
      refine ⟨⟨⟨⟨hy, hm1⟩, hm2⟩, ?_⟩, ?_⟩ <;> omega
    · simp only [rataDie]
      omega
  · have hd : d = 1 := by omega
    subst hd
    by_cases hmon : m > 1
    · have hp : prevDay ⟨y, m, 1⟩ = ⟨y, m - 1, daysInMonth y (m - 1)⟩ := by
        simp [prevDay, hmon]
      rw [hp]
      obtain ⟨k, rfl⟩ : ∃ k, m = k + 1 := ⟨m - 1, by omega⟩
      have hkpos : 1 ≤ k := by omega
      have hdim := daysInMonth_pos y k
      have hsucc := daysBeforeMonth_succ y k hkpos
      constructor
      · simp only [isValidPyDate, Bool.and_eq_true, decide_eq_true_eq]
        refine ⟨⟨⟨⟨hy, ?_⟩, ?_⟩, ?_⟩, ?_⟩ <;> simp only [Nat.add_sub_cancel] <;> omega
      · simp only [rataDie, Nat.add_sub_cancel]
        omega
    · have hm : m = 1 := by omega
      subst hm
      have hy2 : 2 ≤ y := by
        rcases Nat.lt_or_ge y 2 with h | h
        · exfalso
          exact hne ⟨show y = 1 by omega, rfl, rfl⟩
        · exact h
      have hp : prevDay ⟨y, 1, 1⟩ = ⟨y - 1, 12, 31⟩ := by
        simp [prevDay]
      rw [hp]
      have h12 : daysInMonth (y - 1) 12 = 31 := daysInMonth_twelve (y - 1)
      constructor
      · simp only [isValidPyDate, Bool.and_eq_true, decide_eq_true_eq]
        omega
      · simp only [rataDie]
        have h334 := daysBeforeMonth_twelve (y - 1)
        have hleap := leapYearsBefore_succ (y - 1) (by omega)
        have hdbm1 : daysBeforeMonth y 1 = 0 := rfl
        by_cases hl : isLeapYear (y - 1) <;> simp [hl] at h334 hleap <;> omega

/-- Witness for C9 at the spec's example: `start = 2024-03-01`,
`end = 2024-03-31` yield the window
`2024-02-29T22:00:00+00:00` to `2024-03-31T21:59:59+00:00`. -/
theorem C9_query_window_witness :
    measurements_query_window ⟨2024, 3, 1⟩ ⟨2024, 3, 31⟩ =
      ("2024-02-29T22:00:00+00:00", "2024-03-31T21:59:59+00:00") ∧
    isValidPyDate ⟨2024, 3, 1⟩ = true ∧
    (isValidPyDate (prevDay ⟨2024, 3, 1⟩) = true ∧
      rataDie (prevDay ⟨2024, 3, 1⟩) + 1 = rataDie ⟨2024, 3, 1⟩) :=
  ⟨by decide, by decide,
   (C9_query_window ⟨2024, 3, 1⟩ ⟨2024, 3, 31⟩ (by decide) (by decide)).2⟩

/-- Witness for C8 at the concrete daily series of the C3 example. -/
theorem C8_transfer_fees_formula_witness :
    exMeasResp.intervals = some ⟨[⟨exMeas⟩]⟩ ∧
    calculate_transfer_fees_between_dates exMeasResp 5 3 =
      .ok (specTotalConsumption exMeas * 5 / 100 + 3) :=
  ⟨rfl,
   C8_transfer_fees_formula exMeasResp ⟨[⟨exMeas⟩]⟩ ⟨exMeas⟩ [] 5 3 rfl rfl⟩
